import Mathlib

/-!
Verification of the playlist-aggregation server (src/server.js).

The JavaScript source is shallowly embedded: each function of the server
becomes a Lean definition over explicit data, external effects (the two
HTTP collaborators, the random source) become explicit parameters, and
JavaScript builtins used by the source (toLowerCase, trim, the regex
replaces, JSON.parse, Array.prototype.sort with a random comparator,
Math.random) are modelled by executable Lean functions faithful to the
ECMAScript semantics the source relies on.
-/

namespace Spot3

/-- Model of the JavaScript character-wise lower-casing performed by
String.prototype.toLowerCase, as used by clean in src/server.js line 131. -/
def jsToLowerCase (s : String) : String :=
  String.mk (s.data.map Char.toLower)

/-- Normalised track shape produced by normaliseTrack (src/server.js lines
114-125): name, artist, optional url, optional image url, provenance tag. -/
structure Track where
  name : String
  artist : String
  url : Option String
  image : Option String
  source : String
deriving DecidableEq

/-- Deduplication key of clean (src/server.js line 131): the lower-cased
concatenation artist ++ "|||" ++ name. -/
def dedupKey (t : Track) : String :=
  jsToLowerCase (t.artist ++ "|||" ++ t.name)

/-- Case-insensitive (artist, name) pair of a track, the key the spec
speaks about. -/
def lowerPair (t : Track) : String × String :=
  (jsToLowerCase t.artist, jsToLowerCase t.name)

/-- Embedding of the filter loop of clean (src/server.js lines 128-136):
the mutable Set seen is threaded as an explicit list of keys already kept. -/
def cleanAux : List Track → List String → List Track
  | [], _ => []
  | t :: ts, seen =>
    if dedupKey t ∈ seen then cleanAux ts seen
    else t :: cleanAux ts (dedupKey t :: seen)

/-- Deduplicate by "artist – name" (src/server.js lines 128-136). -/
def clean (tracks : List Track) : List Track :=
  cleanAux tracks []

theorem jsToLowerCase_append (a b : String) :
    jsToLowerCase (a ++ b) = jsToLowerCase a ++ jsToLowerCase b := by
  apply String.ext
  simp [jsToLowerCase, String.data_append]

theorem lowerPair_eq_dedupKey_eq {a b : Track} (h : lowerPair a = lowerPair b) :
    dedupKey a = dedupKey b := by
  rcases Prod.mk.injEq .. ▸ h with ⟨h1, h2⟩
  unfold dedupKey
  rw [jsToLowerCase_append, jsToLowerCase_append, jsToLowerCase_append,
    jsToLowerCase_append, h1, h2]

theorem cleanAux_mem_key_notin_seen :
    ∀ (ts : List Track) (seen : List String) (t : Track),
      t ∈ cleanAux ts seen → dedupKey t ∉ seen := by
  intro ts
  induction ts with
  | nil => intro seen t ht; simp [cleanAux] at ht
  | cons t0 ts ih =>
    intro seen t ht
    by_cases h : dedupKey t0 ∈ seen
    · rw [cleanAux, if_pos h] at ht
      exact ih seen t ht
    · rw [cleanAux, if_neg h] at ht
      rcases List.mem_cons.mp ht with rfl | hmem
      · exact h
      · have := ih (dedupKey t0 :: seen) t hmem
        exact fun hs => this (List.mem_cons_of_mem _ hs)

theorem cleanAux_pairwise_keys :
    ∀ (ts : List Track) (seen : List String),
      (cleanAux ts seen).Pairwise (fun a b => dedupKey a ≠ dedupKey b) := by
  intro ts
  induction ts with
  | nil => intro seen; simp [cleanAux]
  | cons t0 ts ih =>
    intro seen
    by_cases h : dedupKey t0 ∈ seen
    · rw [cleanAux, if_pos h]; exact ih seen
    · rw [cleanAux, if_neg h]
      refine List.Pairwise.cons ?_ (ih _)
      intro b hb hkey
      have := cleanAux_mem_key_notin_seen ts (dedupKey t0 :: seen) b hb
      exact this (hkey ▸ List.mem_cons_self _ _)

theorem cleanAux_first_occurrence :
    ∀ (ts : List Track) (seen : List String) (t : Track),
      t ∈ cleanAux ts seen →
      ∃ pre suf, ts = pre ++ t :: suf ∧ ∀ u ∈ pre, dedupKey u ≠ dedupKey t := by
  intro ts
  induction ts with
  | nil => intro seen t ht; simp [cleanAux] at ht
  | cons t0 ts ih =>
    intro seen t ht
    have hnotin := cleanAux_mem_key_notin_seen (t0 :: ts) seen t ht
    by_cases h : dedupKey t0 ∈ seen
    · rw [cleanAux, if_pos h] at ht
      obtain ⟨pre, suf, heq, hpre⟩ := ih seen t ht
      refine ⟨t0 :: pre, suf, by simp [heq], ?_⟩
      intro u hu
      rcases List.mem_cons.mp hu with rfl | hu2
      · intro hk; exact hnotin (hk ▸ h)
      · exact hpre u hu2
    · rw [cleanAux, if_neg h] at ht
      rcases List.mem_cons.mp ht with rfl | hmem
      · exact ⟨[], ts, rfl, by simp⟩
      · obtain ⟨pre, suf, heq, hpre⟩ := ih (dedupKey t0 :: seen) t hmem
        have hne : dedupKey t0 ≠ dedupKey t := by
          intro hk
          exact cleanAux_mem_key_notin_seen ts (dedupKey t0 :: seen) t hmem
            (hk ▸ List.mem_cons_self _ _)
        refine ⟨t0 :: pre, suf, by simp [heq], ?_⟩
        intro u hu
        rcases List.mem_cons.mp hu with rfl | hu2
        · exact hne
        · exact hpre u hu2

theorem clean_pairwise_lowerPair (ts : List Track) :
    (clean ts).Pairwise (fun a b => lowerPair a ≠ lowerPair b) := by
  have hk := cleanAux_pairwise_keys ts []
  exact hk.imp (fun hne hp => hne (lowerPair_eq_dedupKey_eq hp))

theorem clean_first_occurrence (ts : List Track) (t : Track) (h : t ∈ clean ts) :
    ∃ pre suf, ts = pre ++ t :: suf ∧ ∀ u ∈ pre, lowerPair u ≠ lowerPair t := by
  obtain ⟨pre, suf, heq, hpre⟩ := cleanAux_first_occurrence ts [] t h
  exact ⟨pre, suf, heq, fun u hu hp => hpre u hu (lowerPair_eq_dedupKey_eq hp)⟩

/-- Image entry of a raw Last.fm track record: a size tag and the value of
its "#text" field (none when the key is absent). -/
structure ImageEntry where
  size : String
  text : Option String
deriving DecidableEq

/-- Shape of the artist field of a raw Last.fm track record, as consumed by
the expression track.artist?.name || track.artist || "Unknown" in
normaliseTrack: absent, a plain string, or an object with an optional name. -/
inductive RawArtist where
  | missing
  | str (s : String)
  | obj (name : Option String)
deriving DecidableEq

/-- Raw track record returned by the music-metadata service before
normalisation (the fields normaliseTrack reads). -/
structure RawTrack where
  name : String
  artist : RawArtist
  url : Option String
  image : Option (List ImageEntry)
deriving DecidableEq

/-- Evaluation of track.artist?.name || track.artist || "Unknown"
(src/server.js line 117). A string artist with empty text is falsy and
falls through to "Unknown"; an object artist whose name is absent or empty
is itself truthy, so the expression yields the object, which every later
use of the field (the dedup template literal) coerces to the string
"[object Object]". -/
def jsArtistField : RawArtist → String
  | .missing => "Unknown"
  | .str s => if s = "" then "Unknown" else s
  | .obj name =>
    match name with
    | some n => if n = "" then "[object Object]" else n
    | none => "[object Object]"

/-- Evaluation of track.image?.find(i => i.size === sz)?.["#text"]
(src/server.js lines 120-121): the "#text" field of the first image entry
of the requested size, none when the image array or the entry or the key
is absent. -/
def jsImageLookup (image : Option (List ImageEntry)) (sz : String) : Option String :=
  match image with
  | none => none
  | some entries =>
    match entries.find? (fun i => i.size = sz) with
    | none => none
    | some e => e.text

/-- JavaScript truthiness of an optional string: undefined and the empty
string are falsy under the || operator. -/
def jsTruthyStr : Option String → Bool
  | some s => decide (s ≠ "")
  | none => false

/-- Image selection of normaliseTrack (src/server.js lines 119-122):
medium-size "#text" if truthy, else large-size "#text" if truthy, else null. -/
def imageOf (image : Option (List ImageEntry)) : Option String :=
  if jsTruthyStr (jsImageLookup image "medium") then jsImageLookup image "medium"
  else if jsTruthyStr (jsImageLookup image "large") then jsImageLookup image "large"
  else none

/-- Normalise a Last.fm track into a simple object (src/server.js lines
114-125). The url field applies track.url || null, so an empty string also
becomes null. -/
def normaliseTrack (track : RawTrack) (source : String) : Track :=
  { name := track.name
    artist := jsArtistField track.artist
    url :=
      match track.url with
      | some u => if u = "" then none else some u
      | none => none
    image := imageOf track.image
    source := source }

/-- Tag Set produced by Tag Inference (the fields buildPlaylist reads);
none models an absent key, handled by the || [] fallbacks. -/
structure TagSet where
  eraTags : Option (List String)
  culturalTags : Option (List String)
  artists : Option (List String)

/-- Outcome of one lookup against the music-metadata service: none models
a rejected promise (swallowed by Promise.allSettled), some l a resolved
fetch whose data?...?.track || [] evaluated to l. -/
def LookupOutcome : Type := String → Option (List RawTrack)

/-- Flat collection of normalised tracks pushed into allTracks by
buildPlaylist (src/server.js lines 140-168): the genre group over the
first 8 cultural tags, then the artist group over the first 20 artists,
then the era group over the first 2 era tags. The three groups are awaited
sequentially; within a group the concurrent pushes are linearised in tag
order (no claim depends on the intra-group order). A rejected lookup
contributes no pushes. -/
def allTracks (tags : TagSet) (genreL artistL eraL : LookupOutcome) : List Track :=
  ((tags.culturalTags.getD []).take 8).flatMap
    (fun tag => ((genreL tag).getD []).map (fun t => normaliseTrack t ("genre:" ++ tag)))
  ++ ((tags.artists.getD []).take 20).flatMap
    (fun a => ((artistL a).getD []).map (fun t => normaliseTrack t ("artist:" ++ a)))
  ++ ((tags.eraTags.getD []).take 2).flatMap
    (fun d => ((eraL d).getD []).map (fun t => normaliseTrack t ("era:" ++ d)))

/-- Main playlist builder (src/server.js lines 139-175): gather, dedup with
clean, shuffle with a random-comparator sort, truncate to 25. The sort
unique.sort(() => Math.random() - 0.5) is abstracted as a function shuf on
track lists; theorems about buildPlaylist assume only that shuf permutes
its argument, which ECMAScript guarantees for Array.prototype.sort under
any comparator. -/
def buildPlaylist (tags : TagSet) (genreL artistL eraL : LookupOutcome)
    (shuf : List Track → List Track) : List Track :=
  (shuf (clean (allTracks tags genreL artistL eraL))).take 25

/-- Request issued to the music-metadata service: Last.fm method name, the
tag or artist it is keyed by, and the limit query parameter. -/
structure LastfmRequest where
  method : String
  subject : String
  limit : Nat
deriving DecidableEq

/-- Request built by lastfmArtistTopTracks (src/server.js lines 98-111);
the limit parameter defaults to 8 when the caller omits it. -/
def lastfmArtistTopTracksRequest (artist : String) (limit : Nat := 8) : LastfmRequest :=
  { method := "artist.gettoptracks", subject := artist, limit := limit }

/-- Requests issued by the artist lookup group of buildPlaylist
(src/server.js lines 150-158): one per artist of (tags.artists || [])
.slice(0, 20), each passing limit 40 to lastfmArtistTopTracks. -/
def artistGroupRequests (tags : TagSet) : List LastfmRequest :=
  ((tags.artists.getD []).take 20).map (fun a => lastfmArtistTopTracksRequest a 40)

/-- JavaScript value of a request-body field; undefined models an absent
key. Numbers are modelled as integers (the claims only need 0). -/
inductive JSValue where
  | undefined
  | null
  | boolean (b : Bool)
  | number (n : Int)
  | str (s : String)
deriving DecidableEq

/-- JavaScript truthiness, the test applied by the ! operators of the
validation check (src/server.js line 182). -/
def JSValue.truthy : JSValue → Bool
  | .undefined => false
  | .null => false
  | .boolean b => b
  | .number n => decide (n ≠ 0)
  | .str s => decide (s ≠ "")

/-- Request body fields read by the validation check of the handler. -/
structure RequestBody where
  birth_year : JSValue
  hometown : JSValue
  language : JSValue

/-- Outcome of the awaited getTagsFromGemini call inside the handler try
block: a rejection or thrown parse error with its message, or a Tag Set. -/
inductive GeminiOutcome where
  | failure (msg : String)
  | success (tags : TagSet)

/-- Response produced by the POST /api/generate-playlist handler:
status 400 with an error message, status 500 with an error message, or
status 200 with the tags and the playlist. -/
inductive HandlerResult where
  | validationError (msg : String)
  | serverError (msg : String)
  | ok (tags : TagSet) (playlist : List Track)

/-- Embedding of the handler (src/server.js lines 178-201): the truthiness
validation short-circuits before either external service is consulted;
a Gemini failure is caught and surfaces as a 500 with the message of the
error; otherwise the built playlist is returned with the tags. The two
collaborators are passed as explicit outcomes. -/
def handler (body : RequestBody) (gemini : GeminiOutcome)
    (genreL artistL eraL : LookupOutcome) (shuf : List Track → List Track) :
    HandlerResult :=
  if !body.birth_year.truthy && !body.hometown.truthy && !body.language.truthy then
    .validationError "Please provide at least birth year, hometown, or language."
  else
    match gemini with
    | .failure msg => .serverError msg
    | .success tags => .ok tags (buildPlaylist tags genreL artistL eraL shuf)

/-- Backtick character, written by code point to keep it out of the code
proper. -/
def btick : Char := Char.ofNat 96

/-- Drop one optional leading newline, the final element of the leading
fence regex. -/
def stripNl : List Char → List Char
  | c :: r => if c = '\n' then r else c :: r
  | [] => []

/-- Model of the first replace of src/server.js line 77, the regex that
deletes a leading code fence: three backticks at the start of the string,
then a maximal run of ASCII letters (the case-insensitive [a-z]* language
tag), then one optional newline. -/
def stripLeadChars (cs : List Char) : List Char :=
  match cs with
  | c1 :: c2 :: c3 :: rest =>
    if c1 = btick ∧ c2 = btick ∧ c3 = btick then
      stripNl (rest.dropWhile Char.isAlpha)
    else cs
  | cs => cs

/-- Model of the second replace of src/server.js line 77: the anchor of
the regex matches only at the absolute end of the string (no multiline
flag), so exactly a final run of three backticks is deleted. -/
def stripTrailChars (cs : List Char) : List Char :=
  match cs.reverse with
  | c1 :: c2 :: c3 :: rest =>
    if c1 = btick ∧ c2 = btick ∧ c3 = btick then rest.reverse else cs
  | _ => cs

/-- White space removed by String.prototype.trim. -/
def jsWhitespace (c : Char) : Bool :=
  c = ' ' || c = '\t' || c = '\n' || c = '\r' ||
  c = Char.ofNat 11 || c = Char.ofNat 12 || c = Char.ofNat 0xa0 ||
  c = Char.ofNat 0xfeff || c = Char.ofNat 0x2028 || c = Char.ofNat 0x2029

/-- Model of String.prototype.trim. -/
def jsTrim (s : String) : String :=
  String.mk (((s.data.dropWhile jsWhitespace).reverse.dropWhile jsWhitespace).reverse)

/-- Defensive stripping applied to the accumulated model output
(src/server.js line 77): delete a leading fence, delete a trailing fence,
trim white space. -/
def stripFences (s : String) : String :=
  jsTrim (String.mk (stripTrailChars (stripLeadChars s.data)))

/-- Accumulation loop of src/server.js lines 71-74: the text of every
streamed chunk, with chunk.text ?? "" turning an absent text into the
empty string, concatenated in order. -/
def collectChunks (chunks : List (Option String)) : String :=
  String.join (chunks.map (fun c => c.getD ""))

/-- Opening brace character, written by code point. -/
def lbrace : Char := Char.ofNat 123

/-- Closing brace character, written by code point. -/
def rbrace : Char := Char.ofNat 125

/-- White space of the JSON grammar accepted by JSON.parse. -/
def jsonWs (c : Char) : Bool :=
  c = ' ' || c = '\t' || c = '\n' || c = '\r'

/-- Skip JSON white space. -/
def skipJsonWs (cs : List Char) : List Char :=
  cs.dropWhile jsonWs

/-- Require one or more decimal digits, return the remainder. -/
def jsonDigits : List Char → Option (List Char)
  | c :: rest => if c.isDigit then some (rest.dropWhile Char.isDigit) else none
  | [] => none

/-- Optional fraction part of a JSON number. -/
def jsonFrac : List Char → Option (List Char)
  | '.' :: rest => jsonDigits rest
  | cs => some cs

/-- Optional exponent part of a JSON number. -/
def jsonExpPart : List Char → Option (List Char)
  | c :: rest =>
    if c = 'e' || c = 'E' then
      match rest with
      | s :: rest2 =>
        if s = '+' || s = '-' then jsonDigits rest2 else jsonDigits (s :: rest2)
      | [] => none
    else some (c :: rest)
  | [] => some []

/-- JSON number: optional minus, integer part without leading zeros,
optional fraction, optional exponent. -/
def jsonNumber (cs : List Char) : Option (List Char) :=
  let cs1 := match cs with | '-' :: r => r | r => r
  let intRest : Option (List Char) :=
    match cs1 with
    | '0' :: r => some r
    | r => jsonDigits r
  match intRest with
  | none => none
  | some r =>
    match jsonFrac r with
    | none => none
    | some r2 => jsonExpPart r2

/-- Hexadecimal digit test for unicode escapes. -/
def isHexDigitChar (c : Char) : Bool :=
  c.isDigit || (97 ≤ c.val && c.val ≤ 102) || (65 ≤ c.val && c.val ≤ 70)

/-- Body of a JSON string after the opening quote: ordinary characters
above U+001F, the short escapes, and unicode escapes, up to the closing
quote; returns the remainder. -/
def jsonStringRest (fuel : Nat) (cs : List Char) : Option (List Char) :=
  match fuel with
  | 0 => none
  | fuel + 1 =>
    match cs with
    | [] => none
    | c :: rest =>
      if c = '"' then some rest
      else if c = '\\' then
        match rest with
        | e :: rest2 =>
          if e = '"' || e = '\\' || e = '/' || e = 'b' || e = 'f' ||
              e = 'n' || e = 'r' || e = 't' then
            jsonStringRest fuel rest2
          else if e = 'u' then
            match rest2 with
            | h1 :: h2 :: h3 :: h4 :: rest3 =>
              if isHexDigitChar h1 && isHexDigitChar h2 && isHexDigitChar h3 && isHexDigitChar h4 then
                jsonStringRest fuel rest3
              else none
            | _ => none
          else none
        | [] => none
      else if c.val < 32 then none
      else jsonStringRest fuel rest

/-- Mode of the recursive JSON parser: a value, the member list of an
object after its first key is known to start, or the element list of an
array. -/
inductive JsonMode where
  | value
  | members
  | elements

/-- Recursive part of the grammar accepted by JSON.parse, written as one
fuel-indexed function so that it reduces by evaluation. In value mode it
parses one JSON value; in members mode a non-empty member list with the
closing brace; in elements mode a non-empty element list with the closing
bracket. It returns the unconsumed remainder; the fuel only bounds the
recursion depth and is chosen larger than the input length. -/
def jsonRun (fuel : Nat) (mode : JsonMode) (cs : List Char) : Option (List Char) :=
  match fuel with
  | 0 => none
  | fuel + 1 =>
    match mode with
    | .value =>
      match cs with
      | 'n' :: 'u' :: 'l' :: 'l' :: rest => some rest
      | 't' :: 'r' :: 'u' :: 'e' :: rest => some rest
      | 'f' :: 'a' :: 'l' :: 's' :: 'e' :: rest => some rest
      | '"' :: rest => jsonStringRest (fuel + 1) rest
      | c :: rest =>
        if c = lbrace then
          match skipJsonWs rest with
          | d :: r1 => if d = rbrace then some r1 else jsonRun fuel .members (d :: r1)
          | [] => none
        else if c = '[' then
          match skipJsonWs rest with
          | d :: r1 => if d = ']' then some r1 else jsonRun fuel .elements (d :: r1)
          | [] => none
        else jsonNumber (c :: rest)
      | [] => none
    | .members =>
      match cs with
      | '"' :: rest =>
        match jsonStringRest fuel rest with
        | none => none
        | some r1 =>
          match skipJsonWs r1 with
          | ':' :: r2 =>
            match jsonRun fuel .value (skipJsonWs r2) with
            | none => none
            | some r3 =>
              match skipJsonWs r3 with
              | d :: r4 =>
                if d = rbrace then some r4
                else if d = ',' then jsonRun fuel .members (skipJsonWs r4)
                else none
              | [] => none
          | _ => none
      | _ => none
    | .elements =>
      match jsonRun fuel .value cs with
      | none => none
      | some r1 =>
        match skipJsonWs r1 with
        | d :: r2 =>
          if d = ']' then some r2
          else if d = ',' then jsonRun fuel .elements (skipJsonWs r2)
          else none
        | [] => none

/-- Validity of a string under the grammar accepted by JSON.parse:
optional surrounding white space around exactly one JSON value. -/
def jsonValid (s : String) : Bool :=
  match jsonRun (s.data.length + 1) .value (skipJsonWs s.data) with
  | some rest => (skipJsonWs rest).isEmpty
  | none => false

/-- Model of getTagsFromGemini once the stream is consumed (src/server.js
lines 71-78): strip fences from the concatenated chunk texts and apply
JSON.parse, modelled as validation against the JSON grammar; some raw is a
successful parse of raw, none is the thrown ParseError. -/
def getTagsFromGemini (chunks : List (Option String)) : Option String :=
  let raw := stripFences (collectChunks chunks)
  if jsonValid raw then some raw else none

/-- Number of distinct outcomes of Math.random: the doubles k divided by
two to the 53 for k below two to the 53, drawn uniformly. -/
def mathRandomCard : Nat := 2 ^ 53

/-- Positivity of the comparator () => Math.random() - 0.5 of src/server.js
line 173 on the random outcome k: positive exactly when k over two to the
53 exceeds one half. -/
def randCmpPos (k : Nat) : Bool := decide (2 ^ 52 < k)

/-- ECMAScript sort of a two-element array under the random comparator
evaluated once with outcome k (src/server.js line 173): the pair is
swapped exactly when the comparator value is positive, kept otherwise. -/
def jsSort2 (a b : Track) (k : Nat) : List Track :=
  if randCmpPos k then [b, a] else [a, b]

/-- C1: for every input list of tracks, the output of clean contains no two
tracks whose lower-cased (artist, name) pairs are equal, each retained
track is the first occurrence of its lower-cased pair in the input, and
hence the playlist of one response contains no two tracks sharing the same
case-insensitive (artist, name) pair. -/
theorem clean_no_duplicate_pairs (ts : List Track) (tags : TagSet)
    (genreL artistL eraL : LookupOutcome) (shuf : List Track → List Track)
    (hs : ∀ l, List.Perm (shuf l) l) :
    (clean ts).Pairwise (fun a b => lowerPair a ≠ lowerPair b) ∧
    (∀ t ∈ clean ts,
      ∃ pre suf, ts = pre ++ t :: suf ∧ ∀ u ∈ pre, lowerPair u ≠ lowerPair t) ∧
    (buildPlaylist tags genreL artistL eraL shuf).Pairwise
      (fun a b => lowerPair a ≠ lowerPair b) := by
  refine ⟨clean_pairwise_lowerPair ts, clean_first_occurrence ts, ?_⟩
  have h1 := clean_pairwise_lowerPair (allTracks tags genreL artistL eraL)
  have hperm := hs (clean (allTracks tags genreL artistL eraL))
  have h2 := (hperm.pairwise_iff (fun hxy hyx => hxy hyx.symm)).mpr h1
  exact h2.sublist (List.take_sublist 25 _)

/-- Witness: clean_no_duplicate_pairs applied to a concrete list holding a
case-variant duplicate and to a playlist built with the identity shuffle. -/
theorem clean_no_duplicate_pairs_witness :
    (clean [⟨"Yesterday", "The Beatles", none, none, "genre:rock"⟩,
        ⟨"YESTERDAY", "the beatles", none, none, "era:1960s"⟩]).Pairwise
      (fun a b => lowerPair a ≠ lowerPair b) ∧
    (∀ t ∈ clean [⟨"Yesterday", "The Beatles", none, none, "genre:rock"⟩,
        ⟨"YESTERDAY", "the beatles", none, none, "era:1960s"⟩],
      ∃ pre suf,
        [⟨"Yesterday", "The Beatles", none, none, "genre:rock"⟩,
          ⟨"YESTERDAY", "the beatles", none, none, "era:1960s"⟩] = pre ++ t :: suf ∧
        ∀ u ∈ pre, lowerPair u ≠ lowerPair t) ∧
    (buildPlaylist ⟨some ["1960s"], some ["rock"], some ["ABBA"]⟩
      (fun _ => some [⟨"T", .str "A", none, none⟩]) (fun _ => none)
      (fun _ => none) id).Pairwise (fun a b => lowerPair a ≠ lowerPair b) :=
  clean_no_duplicate_pairs
    [⟨"Yesterday", "The Beatles", none, none, "genre:rock"⟩,
      ⟨"YESTERDAY", "the beatles", none, none, "era:1960s"⟩]
    ⟨some ["1960s"], some ["rock"], some ["ABBA"]⟩
    (fun _ => some [⟨"T", .str "A", none, none⟩]) (fun _ => none) (fun _ => none)
    id (fun l => List.Perm.refl l)

/-- C2: for every Tag Set and every outcome of the lookups and of the
shuffle, the playlist of buildPlaylist has length at most 25 and at most
the number of unique tracks gathered across all lookups, that is the
length of the deduplicated collection. -/
theorem buildPlaylist_size_bound (tags : TagSet)
    (genreL artistL eraL : LookupOutcome) (shuf : List Track → List Track)
    (hs : ∀ l, List.Perm (shuf l) l) :
    (buildPlaylist tags genreL artistL eraL shuf).length ≤ 25 ∧
    (buildPlaylist tags genreL artistL eraL shuf).length ≤
      (clean (allTracks tags genreL artistL eraL)).length := by
  constructor
  · rw [buildPlaylist, List.length_take]
    exact min_le_left _ _
  · rw [buildPlaylist, List.length_take, (hs _).length_eq]
    exact min_le_right _ _

/-- Witness: buildPlaylist_size_bound at a concrete Tag Set with one
successful genre lookup and the identity shuffle. -/
theorem buildPlaylist_size_bound_witness :
    (buildPlaylist ⟨some ["1960s"], some ["rock"], some ["ABBA"]⟩
      (fun _ => some [⟨"T", .str "A", none, none⟩]) (fun _ => none)
      (fun _ => none) id).length ≤ 25 ∧
    (buildPlaylist ⟨some ["1960s"], some ["rock"], some ["ABBA"]⟩
      (fun _ => some [⟨"T", .str "A", none, none⟩]) (fun _ => none)
      (fun _ => none) id).length ≤
      (clean (allTracks ⟨some ["1960s"], some ["rock"], some ["ABBA"]⟩
        (fun _ => some [⟨"T", .str "A", none, none⟩]) (fun _ => none)
        (fun _ => none))).length :=
  buildPlaylist_size_bound ⟨some ["1960s"], some ["rock"], some ["ABBA"]⟩
    (fun _ => some [⟨"T", .str "A", none, none⟩]) (fun _ => none) (fun _ => none)
    id (fun l => List.Perm.refl l)

/-- C10: two tracks with distinct (artist, name) pairs collide under the
dedup key of clean, because artist "a|||b" with name "c" and artist "a"
with name "b|||c" produce the same concatenated key, so only the
first-seen of the two is retained. -/
theorem clean_separator_collision :
    lowerPair ⟨"c", "a|||b", none, none, "s"⟩ ≠
      lowerPair ⟨"b|||c", "a", none, none, "s"⟩ ∧
    dedupKey ⟨"c", "a|||b", none, none, "s"⟩ =
      dedupKey ⟨"b|||c", "a", none, none, "s"⟩ ∧
    clean [⟨"c", "a|||b", none, none, "s"⟩, ⟨"b|||c", "a", none, none, "s"⟩] =
      [⟨"c", "a|||b", none, none, "s"⟩] := by
  refine ⟨by decide, by decide, by decide⟩

/-- C5 counterexample: the artist lookup group of buildPlaylist does not
request at most 8 top tracks per artist; the call passes limit 40 to
lastfmArtistTopTracks, so for the singleton artist list the one request
issued carries limit 40. -/
theorem artist_limit_not_eight :
    (artistGroupRequests ⟨none, none, some ["ABBA"]⟩).map (fun r => r.limit) = [40] ∧
    (artistGroupRequests ⟨none, none, some ["ABBA"]⟩).all
      (fun r => decide (r.limit ≤ 8)) = false := by
  refine ⟨by decide, by decide⟩

/-- C5 amended: the artist lookup group issues one request per artist for
up to 20 artists, each request using method artist.gettoptracks with limit
40 (the call site overrides the default limit 8 of
lastfmArtistTopTracksRequest). -/
theorem artist_group_requests_spec (tags : TagSet) :
    (artistGroupRequests tags).length = min 20 (tags.artists.getD []).length ∧
    ∀ r ∈ artistGroupRequests tags,
      r.method = "artist.gettoptracks" ∧ r.limit = 40 ∧
      (lastfmArtistTopTracksRequest r.subject).limit = 8 := by
  constructor
  · rw [artistGroupRequests, List.length_map, List.length_take]
  · intro r hr
    rw [artistGroupRequests] at hr
    obtain ⟨a, _, rfl⟩ := List.mem_map.mp hr
    exact ⟨rfl, rfl, rfl⟩

/-- Witness: artist_group_requests_spec at a concrete singleton Tag Set and
its one request. -/
theorem artist_group_requests_spec_witness :
    (artistGroupRequests ⟨none, none, some ["ABBA"]⟩).length =
      min 20 ((⟨none, none, some ["ABBA"]⟩ : TagSet).artists.getD []).length ∧
    (lastfmArtistTopTracksRequest "ABBA" 40).method = "artist.gettoptracks" ∧
    (lastfmArtistTopTracksRequest "ABBA" 40).limit = 40 ∧
    (lastfmArtistTopTracksRequest "ABBA").limit = 8 :=
  have h := artist_group_requests_spec ⟨none, none, some ["ABBA"]⟩
  have hm := h.2 (lastfmArtistTopTracksRequest "ABBA" 40) (by decide)
  ⟨h.1, hm.1, hm.2.1, hm.2.2⟩

/-- C3: a failed lookup is indistinguishable from a successful lookup that
returned no tracks, so a sub-fetch failure never fails the aggregation;
when every lookup of every group fails the playlist is empty and the
handler still answers with the Tag Set and an empty playlist rather than
an error. -/
theorem buildPlaylist_failure_isolation (body : RequestBody) (tags : TagSet)
    (genreL artistL eraL : LookupOutcome) (shuf : List Track → List Track)
    (hs : ∀ l, List.Perm (shuf l) l)
    (hvalid : body.birth_year.truthy = true)
    (hg : ∀ t, genreL t = none) (ha : ∀ t, artistL t = none)
    (he : ∀ t, eraL t = none) :
    (∀ g a e : LookupOutcome,
      allTracks tags g a e =
        allTracks tags (fun t => some ((g t).getD []))
          (fun t => some ((a t).getD [])) (fun t => some ((e t).getD []))) ∧
    buildPlaylist tags genreL artistL eraL shuf = [] ∧
    handler body (.success tags) genreL artistL eraL shuf = .ok tags [] := by
  have hall : allTracks tags genreL artistL eraL = [] := by
    simp [allTracks, hg, ha, he]
  have hempty : buildPlaylist tags genreL artistL eraL shuf = [] := by
    rw [buildPlaylist, hall]
    rw [show clean [] = [] from rfl, (hs []).eq_nil]
    rfl
  refine ⟨fun g a e => rfl, hempty, ?_⟩
  unfold handler
  rw [hvalid]
  simp [hempty]

/-- Witness: buildPlaylist_failure_isolation for a concrete valid profile
with every lookup rejected and the identity shuffle. -/
theorem buildPlaylist_failure_isolation_witness :
    (∀ g a e : LookupOutcome,
      allTracks ⟨some ["1960s"], some ["rock"], some ["ABBA"]⟩ g a e =
        allTracks ⟨some ["1960s"], some ["rock"], some ["ABBA"]⟩
          (fun t => some ((g t).getD []))
          (fun t => some ((a t).getD [])) (fun t => some ((e t).getD []))) ∧
    buildPlaylist ⟨some ["1960s"], some ["rock"], some ["ABBA"]⟩
      (fun _ => none) (fun _ => none) (fun _ => none) id = [] ∧
    handler ⟨.number 1948, .str "Lagos", .str "Yoruba"⟩
      (.success ⟨some ["1960s"], some ["rock"], some ["ABBA"]⟩)
      (fun _ => none) (fun _ => none) (fun _ => none) id =
      .ok ⟨some ["1960s"], some ["rock"], some ["ABBA"]⟩ [] :=
  buildPlaylist_failure_isolation ⟨.number 1948, .str "Lagos", .str "Yoruba"⟩
    ⟨some ["1960s"], some ["rock"], some ["ABBA"]⟩
    (fun _ => none) (fun _ => none) (fun _ => none) id
    (fun l => List.Perm.refl l) (by decide)
    (fun _ => rfl) (fun _ => rfl) (fun _ => rfl)

/-- C4: the handler answers with the validation error exactly when none of
birth_year, hometown and language is truthy, and in that case the response
does not depend on the outcome of either external service, so no call to
them is observable. -/
theorem handler_validation_iff (body : RequestBody) (gemini : GeminiOutcome)
    (genreL artistL eraL : LookupOutcome) (shuf : List Track → List Track) :
    (handler body gemini genreL artistL eraL shuf =
        .validationError "Please provide at least birth year, hometown, or language." ↔
      (body.birth_year.truthy = false ∧ body.hometown.truthy = false ∧
        body.language.truthy = false)) ∧
    ((body.birth_year.truthy = false ∧ body.hometown.truthy = false ∧
        body.language.truthy = false) →
      ∀ (gemini2 : GeminiOutcome) (genreL2 artistL2 eraL2 : LookupOutcome)
        (shuf2 : List Track → List Track),
        handler body gemini genreL artistL eraL shuf =
          handler body gemini2 genreL2 artistL2 eraL2 shuf2) := by
  by_cases h : (!body.birth_year.truthy && !body.hometown.truthy &&
      !body.language.truthy) = true
  · have hconds : body.birth_year.truthy = false ∧ body.hometown.truthy = false ∧
        body.language.truthy = false := by
      simpa [Bool.and_eq_true, Bool.not_eq_true', and_assoc] using h
    constructor
    · unfold handler
      rw [if_pos h]
      exact ⟨fun _ => hconds, fun _ => rfl⟩
    · intro _ gemini2 genreL2 artistL2 eraL2 shuf2
      unfold handler
      rw [if_pos h, if_pos h]
  · have hconds : ¬ (body.birth_year.truthy = false ∧ body.hometown.truthy = false ∧
        body.language.truthy = false) := by
      simpa [Bool.and_eq_true, Bool.not_eq_true', and_assoc] using h
    constructor
    · unfold handler
      rw [if_neg h]
      refine ⟨fun heq => ?_, fun hc => absurd hc hconds⟩
      cases gemini <;> exact HandlerResult.noConfusion heq
    · intro hc
      exact absurd hc hconds

/-- Witness: handler_validation_iff at a concrete body with all three
identity fields absent, compared across two different service outcomes. -/
theorem handler_validation_iff_witness :
    handler ⟨.undefined, .undefined, .undefined⟩ (.failure "boom")
        (fun _ => none) (fun _ => none) (fun _ => none) id =
      .validationError "Please provide at least birth year, hometown, or language." ∧
    handler ⟨.undefined, .undefined, .undefined⟩ (.failure "boom")
        (fun _ => none) (fun _ => none) (fun _ => none) id =
      handler ⟨.undefined, .undefined, .undefined⟩
        (.success ⟨none, none, none⟩)
        (fun _ => some []) (fun _ => some []) (fun _ => some []) id :=
  have h := handler_validation_iff ⟨.undefined, .undefined, .undefined⟩
    (.failure "boom") (fun _ => none) (fun _ => none) (fun _ => none) id
  ⟨h.1.mpr (by decide),
    h.2 (by decide) (.success ⟨none, none, none⟩)
      (fun _ => some []) (fun _ => some []) (fun _ => some []) id⟩

/-- C9: a request body whose birth_year, hometown and language keys are all
present but falsy, for example birth_year 0 with empty hometown and
language strings, is rejected with the validation error, because the
handler tests the fields by JavaScript truthiness rather than by key
existence. -/
theorem handler_truthiness_as_absent (body : RequestBody)
    (gemini : GeminiOutcome) (genreL artistL eraL : LookupOutcome)
    (shuf : List Track → List Track)
    (pby : body.birth_year ≠ .undefined) (pht : body.hometown ≠ .undefined)
    (plg : body.language ≠ .undefined)
    (fby : body.birth_year.truthy = false) (fht : body.hometown.truthy = false)
    (flg : body.language.truthy = false) :
    handler body gemini genreL artistL eraL shuf =
      .validationError "Please provide at least birth year, hometown, or language." := by
  unfold handler
  rw [fby, fht, flg]
  rfl

/-- Witness: handler_truthiness_as_absent at the body with birth_year 0 and
empty hometown and language strings. -/
theorem handler_truthiness_as_absent_witness :
    handler ⟨.number 0, .str "", .str ""⟩ (.success ⟨none, none, none⟩)
        (fun _ => some []) (fun _ => some []) (fun _ => some []) id =
      .validationError "Please provide at least birth year, hometown, or language." :=
  handler_truthiness_as_absent ⟨.number 0, .str "", .str ""⟩
    (.success ⟨none, none, none⟩)
    (fun _ => some []) (fun _ => some []) (fun _ => some []) id
    (by decide) (by decide) (by decide) (by decide) (by decide) (by decide)

theorem dropWhile_append_all (p : Char → Bool) (l r : List Char)
    (h : ∀ c ∈ l, p c = true) : (l ++ r).dropWhile p = r.dropWhile p := by
  induction l with
  | nil => rfl
  | cons c l ih =>
    rw [List.cons_append, List.dropWhile_cons, if_pos (h c (List.mem_cons_self c l))]
    exact ih (fun d hd => h d (List.mem_cons_of_mem c hd))

theorem stripLeadChars_fence (lang rest : List Char)
    (hlang : ∀ c ∈ lang, Char.isAlpha c = true) :
    stripLeadChars (btick :: btick :: btick :: (lang ++ '\n' :: rest)) = rest := by
  have hdrop : List.dropWhile Char.isAlpha (lang ++ '\n' :: rest) = '\n' :: rest := by
    rw [dropWhile_append_all Char.isAlpha lang _ hlang, List.dropWhile_cons,
      if_neg (by decide)]
  simp [stripLeadChars, hdrop, stripNl]

theorem stripTrailChars_fence (l : List Char) :
    stripTrailChars (l ++ [btick, btick, btick]) = l := by
  simp only [stripTrailChars, List.reverse_append]
  simp

/-- C8 amended: the accumulated chunk text is stripped by deleting a
leading fence of three backticks plus alphabetic language tag plus one
optional newline only at the very start of the text, and a trailing three
backticks only at the very end, then trimming white space; the parse fails
exactly when the stripped text is not grammatical JSON, so a JSON payload
wrapped exactly as fence, newline, payload, fence parses successfully,
while any extra trailing characters after the closing fence defeat the
stripping. -/
theorem gemini_fence_parse (lang body : String) (chunks : List (Option String))
    (hlang : ∀ c ∈ lang.data, Char.isAlpha c = true) :
    stripFences ("```" ++ lang ++ "\n" ++ body ++ "```") = jsTrim body ∧
    (getTagsFromGemini chunks).isSome =
      jsonValid (stripFences (collectChunks chunks)) ∧
    (collectChunks chunks = "```" ++ lang ++ "\n" ++ body ++ "```" →
      jsonValid (jsTrim body) = true → (getTagsFromGemini chunks).isSome = true) := by
  have hdata : ("```" ++ lang ++ "\n" ++ body ++ "```").data =
      btick :: btick :: btick :: (lang.data ++ '\n' :: (body.data ++ [btick, btick, btick])) := by
    simp [String.data_append]
    rfl
  have hstrip : stripFences ("```" ++ lang ++ "\n" ++ body ++ "```") = jsTrim body := by
    rw [stripFences, hdata, stripLeadChars_fence lang.data _ hlang,
      stripTrailChars_fence]
  have hsome : (getTagsFromGemini chunks).isSome =
      jsonValid (stripFences (collectChunks chunks)) := by
    unfold getTagsFromGemini
    by_cases h : jsonValid (stripFences (collectChunks chunks)) = true
    · rw [if_pos h, h]; rfl
    · rw [if_neg h, Bool.eq_false_iff.mpr h]; rfl
  refine ⟨hstrip, hsome, fun hc hv => ?_⟩
  rw [hsome, hc, hstrip, hv]

/-- Witness: gemini_fence_parse at a JSON object payload wrapped in a json
code fence, split across two streamed chunks. -/
theorem gemini_fence_parse_witness :
    stripFences ("```" ++ "json" ++ "\n" ++ "\x7b\"a\":1\x7d" ++ "```") =
      jsTrim "\x7b\"a\":1\x7d" ∧
    (getTagsFromGemini [some "```json\n", some "\x7b\"a\":1\x7d```"]).isSome =
      jsonValid (stripFences
        (collectChunks [some "```json\n", some "\x7b\"a\":1\x7d```"])) ∧
    (collectChunks [some "```json\n", some "\x7b\"a\":1\x7d```"] =
        "```" ++ "json" ++ "\n" ++ "\x7b\"a\":1\x7d" ++ "```" →
      jsonValid (jsTrim "\x7b\"a\":1\x7d") = true →
      (getTagsFromGemini [some "```json\n", some "\x7b\"a\":1\x7d```"]).isSome = true) :=
  gemini_fence_parse "json" "\x7b\"a\":1\x7d"
    [some "```json\n", some "\x7b\"a\":1\x7d```"] (by decide)

/-- C8 counterexample: a well-formed JSON payload wrapped in code fences
does not always parse; when a newline follows the closing fence, the
end-anchored trailing replace does not match, the stripped text still ends
in the three backticks, and the parse fails although the enclosed payload
is valid JSON. -/
theorem fence_strip_trailing_newline_fails :
    jsonValid "\x7b\"a\":1\x7d" = true ∧
    collectChunks [some "```json\n\x7b\"a\":1\x7d\n```\n"] =
      "```" ++ "json" ++ "\n" ++ "\x7b\"a\":1\x7d" ++ "\n```\n" ∧
    stripFences (collectChunks [some "```json\n\x7b\"a\":1\x7d\n```\n"]) =
      "\x7b\"a\":1\x7d\n```" ∧
    getTagsFromGemini [some "```json\n\x7b\"a\":1\x7d\n```\n"] = none := by
  refine ⟨by decide, by decide, by decide, by decide⟩

/-- C7 counterexample: a record whose image array holds a medium entry with
empty text, a medium entry with a non-empty url and a large entry with a
non-empty url normalises to the large url, because the first medium entry
found has falsy text and the lookup falls through to large; so the
medium-size image is not always preferred when both sizes exist. -/
theorem normaliseTrack_medium_not_preferred :
    (⟨"medium", some "m.png"⟩ : ImageEntry) ∈
      [(⟨"medium", some ""⟩ : ImageEntry), ⟨"medium", some "m.png"⟩,
        ⟨"large", some "l.png"⟩] ∧
    (⟨"large", some "l.png"⟩ : ImageEntry) ∈
      [(⟨"medium", some ""⟩ : ImageEntry), ⟨"medium", some "m.png"⟩,
        ⟨"large", some "l.png"⟩] ∧
    (normaliseTrack ⟨"T", .str "A", none,
      some [⟨"medium", some ""⟩, ⟨"medium", some "m.png"⟩,
        ⟨"large", some "l.png"⟩]⟩ "s").image = some "l.png" := by
  refine ⟨by decide, by decide, by decide⟩

/-- C7 amended: normaliseTrack maps a missing artist field to "Unknown";
the image is null when no entry of medium or large size exists; the text
of the first medium entry is used when it is non-empty, the text of the
first large entry is used only when the medium lookup is empty or absent,
and the image is null when neither lookup yields a non-empty text. -/
theorem normaliseTrack_fallbacks (t : RawTrack) (source : String) :
    (t.artist = .missing → (normaliseTrack t source).artist = "Unknown") ∧
    ((t.image.getD []).all
        (fun i => !(decide (i.size = "medium")) && !(decide (i.size = "large"))) = true →
      (normaliseTrack t source).image = none) ∧
    (jsTruthyStr (jsImageLookup t.image "medium") = true →
      (normaliseTrack t source).image = jsImageLookup t.image "medium") ∧
    (jsTruthyStr (jsImageLookup t.image "medium") = false →
      jsTruthyStr (jsImageLookup t.image "large") = true →
      (normaliseTrack t source).image = jsImageLookup t.image "large") ∧
    (jsTruthyStr (jsImageLookup t.image "medium") = false →
      jsTruthyStr (jsImageLookup t.image "large") = false →
      (normaliseTrack t source).image = none) := by
  refine ⟨fun h => by simp [normaliseTrack, h, jsArtistField], ?_, ?_, ?_, ?_⟩
  · intro hall
    rcases ht : t.image with _ | entries
    · simp [normaliseTrack, imageOf, jsImageLookup, ht, jsTruthyStr]
    · rw [ht] at hall
      simp only [Option.getD_some, List.all_eq_true, Bool.and_eq_true,
        Bool.not_eq_true', decide_eq_false_iff_not] at hall
      have hmed : entries.find? (fun i => i.size = "medium") = none :=
        List.find?_eq_none.mpr (fun i hi => by
          simpa using (hall i hi).1)
      have hlar : entries.find? (fun i => i.size = "large") = none :=
        List.find?_eq_none.mpr (fun i hi => by
          simpa using (hall i hi).2)
      simp [normaliseTrack, imageOf, jsImageLookup, ht, hmed, hlar, jsTruthyStr]
  · intro hm
    simp [normaliseTrack, imageOf, hm]
  · intro hm hl
    simp [normaliseTrack, imageOf, hm, hl]
  · intro hm hl
    simp [normaliseTrack, imageOf, hm, hl]

/-- Witness: normaliseTrack_fallbacks applied to a record with a missing
artist and no image, to a record with truthy medium art, and to a record
whose medium art is empty but whose large art is truthy. -/
theorem normaliseTrack_fallbacks_witness :
    (normaliseTrack ⟨"T", .missing, none, none⟩ "s").artist = "Unknown" ∧
    (normaliseTrack ⟨"T", .missing, none, none⟩ "s").image = none ∧
    (normaliseTrack ⟨"T", .str "A", none,
      some [⟨"medium", some "m.png"⟩, ⟨"large", some "l.png"⟩]⟩ "s").image =
      jsImageLookup (some [⟨"medium", some "m.png"⟩, ⟨"large", some "l.png"⟩])
        "medium" ∧
    (normaliseTrack ⟨"T", .str "A", none,
      some [⟨"medium", some ""⟩, ⟨"large", some "l.png"⟩]⟩ "s").image =
      jsImageLookup (some [⟨"medium", some ""⟩, ⟨"large", some "l.png"⟩])
        "large" :=
  have h1 := normaliseTrack_fallbacks ⟨"T", .missing, none, none⟩ "s"
  have h2 := normaliseTrack_fallbacks ⟨"T", .str "A", none,
    some [⟨"medium", some "m.png"⟩, ⟨"large", some "l.png"⟩]⟩ "s"
  have h3 := normaliseTrack_fallbacks ⟨"T", .str "A", none,
    some [⟨"medium", some ""⟩, ⟨"large", some "l.png"⟩]⟩ "s"
  ⟨h1.1 rfl, h1.2.1 (by decide), h2.2.2.1 (by decide),
    h3.2.2.2.1 (by decide) (by decide)⟩

/-- C6 counterexample: the random-comparator sort is not a uniform random
permutation; on a two-element deduplicated collection, counting over the
uniformly drawn outcomes of Math.random, the number of outcomes keeping
the original order differs from the number of outcomes swapping it, so the
two permutations do not have equal probability. -/
theorem shuffle_not_uniform :
    ((Finset.range mathRandomCard).filter
      (fun k => jsSort2 ⟨"A", "X", none, none, "s"⟩ ⟨"B", "Y", none, none, "s"⟩ k =
        [⟨"A", "X", none, none, "s"⟩, ⟨"B", "Y", none, none, "s"⟩])).card ≠
    ((Finset.range mathRandomCard).filter
      (fun k => jsSort2 ⟨"A", "X", none, none, "s"⟩ ⟨"B", "Y", none, none, "s"⟩ k =
        [⟨"B", "Y", none, none, "s"⟩, ⟨"A", "X", none, none, "s"⟩])).card := by
  have p52 : (2 : Nat) ^ 52 = 4503599627370496 := by norm_num
  have p53 : mathRandomCard = 9007199254740992 := by rw [mathRandomCard]; norm_num
  have hkey : ∀ k : Nat,
      jsSort2 ⟨"A", "X", none, none, "s"⟩ ⟨"B", "Y", none, none, "s"⟩ k =
      if 4503599627370496 < k
      then [⟨"B", "Y", none, none, "s"⟩, ⟨"A", "X", none, none, "s"⟩]
      else [⟨"A", "X", none, none, "s"⟩, ⟨"B", "Y", none, none, "s"⟩] := by
    intro k
    by_cases h : 4503599627370496 < k
    · simp [jsSort2, randCmpPos, p52, h]
    · simp [jsSort2, randCmpPos, p52, h]
  have e1 : (Finset.range mathRandomCard).filter
      (fun k => jsSort2 ⟨"A", "X", none, none, "s"⟩ ⟨"B", "Y", none, none, "s"⟩ k =
        [⟨"A", "X", none, none, "s"⟩, ⟨"B", "Y", none, none, "s"⟩]) =
      Finset.range 4503599627370497 := by
    ext k
    simp only [Finset.mem_filter, Finset.mem_range, hkey, p53]
    constructor
    · rintro ⟨hk, heq⟩
      by_cases h : 4503599627370496 < k
      · rw [if_pos h] at heq
        exact absurd heq (by decide)
      · omega
    · intro hk
      exact ⟨by omega, by rw [if_neg (by omega)]⟩
  have e2 : (Finset.range mathRandomCard).filter
      (fun k => jsSort2 ⟨"A", "X", none, none, "s"⟩ ⟨"B", "Y", none, none, "s"⟩ k =
        [⟨"B", "Y", none, none, "s"⟩, ⟨"A", "X", none, none, "s"⟩]) =
      Finset.Ico 4503599627370497 9007199254740992 := by
    ext k
    simp only [Finset.mem_filter, Finset.mem_range, Finset.mem_Ico, hkey, p53]
    constructor
    · rintro ⟨hk, heq⟩
      by_cases h : 4503599627370496 < k
      · exact ⟨by omega, hk⟩
      · rw [if_neg h] at heq
        exact absurd heq (by decide)
    · rintro ⟨h1, h2⟩
      exact ⟨h2, by rw [if_pos (by omega)]⟩
  rw [e1, e2, Finset.card_range, Nat.card_Ico]
  norm_num

/-- C6 amended: the final step reorders the deduplicated collection with a
random-comparator sort, producing a permutation of it that is not
uniformly distributed, and truncates to the first 25 entries; for every
outcome of the shuffle the pre-truncation sequence is a permutation of the
deduplicated collection and every playlist entry belongs to it. -/
theorem shuffle_permutation_truncate (tags : TagSet)
    (genreL artistL eraL : LookupOutcome) (shuf : List Track → List Track)
    (hs : ∀ l, List.Perm (shuf l) l) :
    List.Perm (shuf (clean (allTracks tags genreL artistL eraL)))
      (clean (allTracks tags genreL artistL eraL)) ∧
    buildPlaylist tags genreL artistL eraL shuf =
      (shuf (clean (allTracks tags genreL artistL eraL))).take 25 ∧
    ∀ t ∈ buildPlaylist tags genreL artistL eraL shuf,
      t ∈ clean (allTracks tags genreL artistL eraL) := by
  refine ⟨hs _, rfl, fun t ht => ?_⟩
  have hsub :=
    (List.take_sublist 25 (shuf (clean (allTracks tags genreL artistL eraL)))).subset ht
  exact (hs _).subset hsub

/-- Witness: shuffle_permutation_truncate at a concrete Tag Set with one
successful genre lookup and the identity shuffle. -/
theorem shuffle_permutation_truncate_witness :
    List.Perm (id (clean (allTracks ⟨some ["1960s"], some ["rock"], some ["ABBA"]⟩
        (fun _ => some [⟨"T", .str "A", none, none⟩]) (fun _ => none)
        (fun _ => none))))
      (clean (allTracks ⟨some ["1960s"], some ["rock"], some ["ABBA"]⟩
        (fun _ => some [⟨"T", .str "A", none, none⟩]) (fun _ => none)
        (fun _ => none))) ∧
    buildPlaylist ⟨some ["1960s"], some ["rock"], some ["ABBA"]⟩
      (fun _ => some [⟨"T", .str "A", none, none⟩]) (fun _ => none)
      (fun _ => none) id =
      (id (clean (allTracks ⟨some ["1960s"], some ["rock"], some ["ABBA"]⟩
        (fun _ => some [⟨"T", .str "A", none, none⟩]) (fun _ => none)
        (fun _ => none)))).take 25 ∧
    ∀ t ∈ buildPlaylist ⟨some ["1960s"], some ["rock"], some ["ABBA"]⟩
      (fun _ => some [⟨"T", .str "A", none, none⟩]) (fun _ => none)
      (fun _ => none) id,
      t ∈ clean (allTracks ⟨some ["1960s"], some ["rock"], some ["ABBA"]⟩
        (fun _ => some [⟨"T", .str "A", none, none⟩]) (fun _ => none)
        (fun _ => none)) :=
  shuffle_permutation_truncate ⟨some ["1960s"], some ["rock"], some ["ABBA"]⟩
    (fun _ => some [⟨"T", .str "A", none, none⟩]) (fun _ => none) (fun _ => none)
    id (fun l => List.Perm.refl l)

end Spot3
